import Mathlib

/-!
Verification of the systyle prop-resolution pipeline (repository
jfalxa/moulinette, package react-systyle). The repository ships the README
and build configuration under src/; the executable implementation
(src/index.js) is not present, so the pipeline below is modelled from the
specification's algorithm (spec §4.1/§4.2) and the README's documented
behaviour. The prop-alias table is transcribed verbatim from the README's
"Prop aliases" section, which is part of src/.
-/

namespace Systyle

/-- Value of a prop: a number, a string, or a boolean. -/
inductive Value where
  | num (n : Int)
  | str (s : String)
  | bool (b : Bool)
deriving DecidableEq, Repr

/-- A props mapping: an ordered association list from prop names to values. -/
abbrev Props := List (String × Value)

/-- Lookup of a key in a props mapping: first matching entry wins. -/
def lookupProps : Props → String → Option Value
  | [], _ => none
  | (k, v) :: rest, key => if k = key then some v else lookupProps rest key

/-- Whether a props mapping defines a key. -/
def containsKeyP (p : Props) (k : String) : Bool :=
  (lookupProps p k).isSome

/-- Modelled from the spec: the right-biased shallow merge of two props
mappings (object spread), where on key collision the right mapping wins and
keys present in only one mapping are kept unchanged. -/
def mergeProps (p q : Props) : Props :=
  p.filter (fun kv => !(containsKeyP q kv.1)) ++ q

/-- Modelled from the spec: fold the definition's ordered list of default-prop
objects into one mapping, earliest first, later entries overwriting earlier
ones on key collision (spec §4.1 step 2). -/
def mergeDefaults (ds : List Props) : Props :=
  ds.foldl mergeProps []

/-- Theme descriptor (spec §3): optional spacing multiplier and the colors /
fonts / sizes token mappings. -/
structure Theme where
  spacing : Option Int
  colors : List (String × Value)
  fonts : List (String × Value)
  sizes : List (String × Value)
deriving DecidableEq

/-- Spacing multiplier of an optional theme, defaulting to 1 when the theme
is absent or has no spacing field (spec §4.1 step 6). -/
def themeSpacing : Option Theme → Int
  | none => 1
  | some th => th.spacing.getD 1

/-- Colors mapping of an optional theme ([] when absent). -/
def themeColors : Option Theme → List (String × Value)
  | none => []
  | some th => th.colors

/-- Fonts mapping of an optional theme ([] when absent). -/
def themeFonts : Option Theme → List (String × Value)
  | none => []
  | some th => th.fonts

/-- Sizes mapping of an optional theme ([] when absent). -/
def themeSizes : Option Theme → List (String × Value)
  | none => []
  | some th => th.sizes

/-- A moulinette (transform): a pure function from the accumulated props and
the theme to a replacement props mapping (spec §4.1 step 3, README "Using a
moulinette"). -/
abbrev Moulinette : Type := Props → Option Theme → Props

/-- Modelled from the spec: apply the registered moulinettes in reverse
registration order — the last-added moulinette runs first on the accumulated
mapping, its result is passed to the one added before it, and so on
(spec §4.1 step 3, README lines on moulinette ordering). -/
def applyMoulinettes : List Moulinette → Option Theme → Props → Props
  | [], _, p => p
  | m :: ms, t, p => m (applyMoulinettes ms t p) t

/-- The prop-alias table, transcribed verbatim from the README's
"Prop aliases" section: shorthand prop name to its longhand target
property name(s); axis shorthands expand to two longhands. -/
def aliasTable : List (String × List String) :=
  [ ("bg", ["backgroundColor"]),
    ("font", ["fontFamily"]),
    ("size", ["fontSize"]),
    ("m", ["margin"]),
    ("mx", ["marginLeft", "marginRight"]),
    ("my", ["marginTop", "marginBottom"]),
    ("mt", ["marginTop"]),
    ("mr", ["marginRight"]),
    ("mb", ["marginBottom"]),
    ("ml", ["marginLeft"]),
    ("p", ["padding"]),
    ("px", ["paddingLeft", "paddingRight"]),
    ("py", ["paddingTop", "paddingBottom"]),
    ("pt", ["paddingTop"]),
    ("pr", ["paddingRight"]),
    ("pb", ["paddingBottom"]),
    ("pl", ["paddingLeft"]),
    ("b", ["border"]),
    ("bx", ["borderLeft", "borderRight"]),
    ("by", ["borderTop", "borderBottom"]),
    ("bt", ["borderTop"]),
    ("br", ["borderRight"]),
    ("bb", ["borderBottom"]),
    ("bl", ["borderLeft"]) ]

/-- Targets of an alias key, none when the key is not an alias. -/
def aliasTargets (k : String) : Option (List String) :=
  (aliasTable.find? (fun e => e.1 == k)).map (fun e => e.2)

/-- Longhand entries produced by one props entry under alias expansion
(empty when the key is not an alias). -/
def expandEntry (k : String) (v : Value) : Props :=
  match aliasTargets k with
  | some ts => ts.map (fun tgt => (tgt, v))
  | none => []

/-- All longhand entries produced by the alias keys of a props mapping. -/
def expandedAliases (p : Props) : Props :=
  p.foldr (fun kv acc => expandEntry kv.1 kv.2 ++ acc) []

/-- The non-alias entries of a props mapping, kept unchanged. -/
def literalEntries (p : Props) : Props :=
  p.filter (fun kv => (aliasTargets kv.1).isNone)

/-- Modelled from the spec: alias expansion (spec §4.1 step 5) — every alias
key is replaced by its longhand target(s) carrying the alias's value, axis
shorthands split into two longhands, and when both a shorthand and its
longhand target are present the literal longhand value wins. -/
def expandAliases (p : Props) : Props :=
  mergeProps (expandedAliases p) (literalEntries p)

/-- Property names of the margin/padding spacing family. -/
def spacingProps : List String :=
  [ "margin", "marginTop", "marginRight", "marginBottom", "marginLeft",
    "padding", "paddingTop", "paddingRight", "paddingBottom", "paddingLeft" ]

/-- Whether a property belongs to the spacing family. -/
def isSpacingProp (k : String) : Bool :=
  spacingProps.contains k

/-- Property names of the color family. -/
def colorProps : List String :=
  ["color", "borderColor", "backgroundColor"]

/-- Whether a property belongs to the color family. -/
def isColorProp (k : String) : Bool :=
  colorProps.contains k

/-- Substitute a string value through a theme token table, keeping the
literal value when it matches no key (or the value is not a string). -/
def lookupSubst (table : List (String × Value)) (v : Value) : Value :=
  match v with
  | Value.str s => (lookupProps table s).getD (Value.str s)
  | _ => v

/-- Modelled from the spec: theme-based value resolution for one property
(spec §4.1 step 6) — numeric spacing-family values are multiplied by the
theme's spacing multiplier (default 1 with no theme), color-family string
values matching a theme colors key are substituted, fontFamily via the fonts
mapping and fontSize via the sizes mapping; everything else, and any value
matching no theme key, is kept literally. -/
def resolveThemeValue (t : Option Theme) (k : String) (v : Value) : Value :=
  if isSpacingProp k then
    match v with
    | Value.num n => Value.num (n * themeSpacing t)
    | _ => v
  else if isColorProp k then
    lookupSubst (themeColors t) v
  else if k = "fontFamily" then
    lookupSubst (themeFonts t) v
  else if k = "fontSize" then
    lookupSubst (themeSizes t) v
  else
    v

/-- Theme resolution over a whole props mapping. -/
def resolveTheme (t : Option Theme) (p : Props) : Props :=
  p.map (fun kv => (kv.1, resolveThemeValue t kv.1 kv.2))

/-- A styled-component definition (spec §3): the ordered list of default-prop
objects and the ordered list of registered moulinettes. -/
structure Definition where
  defaults : List Props
  moulinettes : List Moulinette

/-- The base styled component: no defaults, no moulinettes. -/
def mtDef : Definition :=
  ⟨[], []⟩

/-- Modelled from the spec: a with-call with a default-prop object appends it
to the definition's ordered defaults list (spec §4.2). -/
def Definition.withProps (d : Definition) (p : Props) : Definition :=
  ⟨d.defaults ++ [p], d.moulinettes⟩

/-- Modelled from the spec: a with-call with a moulinette appends it to the
definition's ordered moulinettes list (spec §4.2). -/
def Definition.withFn (d : Definition) (m : Moulinette) : Definition :=
  ⟨d.defaults, d.moulinettes ++ [m]⟩

/-- Current raw-CSS block of a props mapping (empty when absent). -/
def cssOf (p : Props) : String :=
  match lookupProps p "css" with
  | some (Value.str s) => s
  | _ => ""

/-- Interleave the static template segments with the results of the
interpolation functions applied to the accumulated props. -/
def interleave : List String → List (Props → String) → Props → String
  | [], _, _ => ""
  | s :: rest, [], p => s ++ interleave rest [] p
  | s :: rest, f :: fs, p => s ++ f p ++ interleave rest fs p

/-- Modelled from the spec: the moulinette built by a css template call —
interpolation functions are invoked with the props accumulated so far, and
the resulting string is appended to the raw CSS block (spec §4.2). -/
def cssMoulinette (parts : List String) (fns : List (Props → String)) : Moulinette :=
  fun p _ => mergeProps p [("css", Value.str (cssOf p ++ interleave parts fns p))]

/-- Modelled from the spec: a css template call registers the css-built
moulinette like any other with-call (spec §4.2). -/
def Definition.css (d : Definition) (parts : List String) (fns : List (Props → String)) : Definition :=
  d.withFn (cssMoulinette parts fns)

/-- The mapping accumulated before alias expansion: merged defaults, then the
moulinettes in reverse registration order, then the caller's literal
render-time props merged over the result (spec §4.1 steps 1-4). -/
def accumulated (d : Definition) (props : Props) (t : Option Theme) : Props :=
  mergeProps (applyMoulinettes d.moulinettes t (mergeDefaults d.defaults)) props

/-- Modelled from the spec: the whole resolution pipeline (spec §4.1) —
defaults, moulinettes in reverse registration order, literal render props
merged last, alias expansion, then theme resolution. -/
def resolve (d : Definition) (props : Props) (t : Option Theme) : Props :=
  resolveTheme t (expandAliases (accumulated d props t))

/-- A moulinette that may throw: the user-supplied function either returns a
replacement props mapping or raises an error (spec §7). -/
abbrev MoulinetteE : Type := Props → Option Theme → Except String Props

/-- Apply possibly-throwing moulinettes in reverse registration order,
propagating the first error raised. -/
def applyMoulinettesE : List MoulinetteE → Option Theme → Props → Except String Props
  | [], _, p => Except.ok p
  | m :: ms, t, p => (applyMoulinettesE ms t p).bind (fun p2 => m p2 t)

/-- A definition whose moulinettes may throw. -/
structure DefinitionE where
  defaults : List Props
  moulinettes : List MoulinetteE

/-- A pure moulinette viewed as a never-throwing one. -/
def liftMoulinette (m : Moulinette) : MoulinetteE :=
  fun p t => Except.ok (m p t)

/-- A pure definition viewed as one with never-throwing moulinettes. -/
def liftDef (d : Definition) : DefinitionE :=
  ⟨d.defaults, d.moulinettes.map liftMoulinette⟩

/-- Modelled from the spec: the resolution pipeline over possibly-throwing
moulinettes — every stage except the user-supplied moulinettes is total, and
an error thrown by a moulinette is propagated synchronously to the caller
(spec §7). -/
def resolveE (d : DefinitionE) (props : Props) (t : Option Theme) : Except String Props :=
  (applyMoulinettesE d.moulinettes t (mergeDefaults d.defaults)).map
    (fun acc => resolveTheme t (expandAliases (mergeProps acc props)))

/-- The README's styleDisabled moulinette, reduced to its background rule:
it reads the accumulated disabled prop and sets the background accordingly. -/
def styleDisabled : Moulinette := fun p _ =>
  mergeProps p
    [("background",
      Value.str (if lookupProps p "disabled" = some (Value.bool true) then "gray" else "white"))]

/-- The README's loader moulinette, reduced to its disabled rule: it sets
disabled from the accumulated loading or disabled props. -/
def loader : Moulinette := fun p _ =>
  mergeProps p
    [("disabled",
      Value.bool (decide (lookupProps p "loading" = some (Value.bool true))
        || decide (lookupProps p "disabled" = some (Value.bool true))))]

/-- String rendering of an optional prop value inside a css interpolation
(absent or non-string values render as the empty string). -/
def strOf : Option Value → String
  | some (Value.str s) => s
  | _ => ""

/-- A moulinette that sets the myColor prop, used to probe which props a css
interpolation can observe. -/
def setMyColor : Moulinette := fun p _ =>
  mergeProps p [("myColor", Value.str "blue")]

/-- The alias table exactly as claim C10 lists it: the 18 single-target
shorthands followed by the six axis shorthands. -/
def claimedAliasTable : List (String × List String) :=
  [ ("bg", ["backgroundColor"]),
    ("font", ["fontFamily"]),
    ("size", ["fontSize"]),
    ("m", ["margin"]),
    ("mt", ["marginTop"]),
    ("mr", ["marginRight"]),
    ("mb", ["marginBottom"]),
    ("ml", ["marginLeft"]),
    ("p", ["padding"]),
    ("pt", ["paddingTop"]),
    ("pr", ["paddingRight"]),
    ("pb", ["paddingBottom"]),
    ("pl", ["paddingLeft"]),
    ("b", ["border"]),
    ("bt", ["borderTop"]),
    ("br", ["borderRight"]),
    ("bb", ["borderBottom"]),
    ("bl", ["borderLeft"]),
    ("mx", ["marginLeft", "marginRight"]),
    ("my", ["marginTop", "marginBottom"]),
    ("px", ["paddingLeft", "paddingRight"]),
    ("py", ["paddingTop", "paddingBottom"]),
    ("bx", ["borderLeft", "borderRight"]),
    ("by", ["borderTop", "borderBottom"]) ]

/-! ### Helper lemmas on lookup, merge and moulinette application -/

theorem lookup_append (a b : Props) (k : String) :
    lookupProps (a ++ b) k = (lookupProps a k).orElse (fun _ => lookupProps b k) := by
  induction a with
  | nil => rfl
  | cons kv rest ih =>
    simp only [List.cons_append, lookupProps]
    by_cases h : kv.1 = k
    · simp [h, Option.orElse]
    · simp [h, ih]

theorem lookup_filterKey (f : String → Bool) (p : Props) (k : String) :
    lookupProps (p.filter (fun kv => f kv.1)) k
      = if f k then lookupProps p k else none := by
  induction p with
  | nil => simp [lookupProps]
  | cons kv rest ih =>
    by_cases hk : kv.1 = k
    · subst hk
      by_cases hf : f kv.1
      · simp [List.filter, hf, lookupProps, ih]
      · simp [List.filter, hf, lookupProps, ih]
    · by_cases hf : f kv.1
      · simp [List.filter, hf, lookupProps, hk, ih]
      · simp [List.filter, hf, lookupProps, hk, ih]

theorem lookup_merge (p q : Props) (k : String) :
    lookupProps (mergeProps p q) k
      = (lookupProps q k).orElse (fun _ => lookupProps p k) := by
  unfold mergeProps
  rw [lookup_append, lookup_filterKey (fun key => !(containsKeyP q key))]
  cases hq : lookupProps q k with
  | none =>
    have : containsKeyP q k = false := by simp [containsKeyP, hq]
    simp [this, Option.orElse]
    cases lookupProps p k <;> simp [Option.orElse]
  | some v =>
    have : containsKeyP q k = true := by simp [containsKeyP, hq]
    simp [this, Option.orElse, hq]

theorem applyMoulinettes_append (ms₁ ms₂ : List Moulinette) (t : Option Theme) (p : Props) :
    applyMoulinettes (ms₁ ++ ms₂) t p
      = applyMoulinettes ms₁ t (applyMoulinettes ms₂ t p) := by
  induction ms₁ with
  | nil => rfl
  | cons m rest ih => simp [applyMoulinettes, ih]

theorem applyMoulinettesE_append (ms₁ ms₂ : List MoulinetteE) (t : Option Theme) (p : Props) :
    applyMoulinettesE (ms₁ ++ ms₂) t p
      = (applyMoulinettesE ms₂ t p).bind (fun p2 => applyMoulinettesE ms₁ t p2) := by
  induction ms₁ with
  | nil =>
    simp only [List.nil_append, applyMoulinettesE]
    cases applyMoulinettesE ms₂ t p <;> rfl
  | cons m rest ih =>
    have h : applyMoulinettesE ((m :: rest) ++ ms₂) t p
        = (applyMoulinettesE (rest ++ ms₂) t p).bind (fun p2 => m p2 t) := rfl
    rw [h, ih]
    cases applyMoulinettesE ms₂ t p <;> rfl

theorem applyMoulinettesE_lift (ms : List Moulinette) (t : Option Theme) (p : Props) :
    applyMoulinettesE (ms.map liftMoulinette) t p
      = Except.ok (applyMoulinettes ms t p) := by
  induction ms with
  | nil => rfl
  | cons m rest ih => simp [applyMoulinettesE, applyMoulinettes, ih, liftMoulinette, Except.bind]

theorem orElse_orElse (a : Option Value) (b c : Unit → Option Value) :
    (a.orElse b).orElse c = a.orElse (fun _ => (b ()).orElse c) := by
  cases a <;> rfl

theorem findSome?_app (f : Props → Option Value) (xs ys : List Props) :
    List.findSome? f (xs ++ ys)
      = (List.findSome? f xs).orElse (fun _ => List.findSome? f ys) := by
  induction xs with
  | nil => rfl
  | cons x rest ih =>
    simp only [List.cons_append, List.findSome?]
    cases f x <;> simp [ih, Option.orElse]

theorem lookup_foldl_merge (ds : List Props) (acc : Props) (k : String) :
    lookupProps (ds.foldl mergeProps acc) k
      = (List.findSome? (fun d => lookupProps d k) ds.reverse).orElse
          (fun _ => lookupProps acc k) := by
  induction ds generalizing acc with
  | nil => rfl
  | cons d rest ih =>
    have h1 : (d :: rest).foldl mergeProps acc = rest.foldl mergeProps (mergeProps acc d) := rfl
    rw [h1, ih, List.reverse_cons, findSome?_app, orElse_orElse]
    have h2 : List.findSome? (fun d2 => lookupProps d2 k) [d]
        = (lookupProps d k).orElse (fun _ => none) := by
      cases h : lookupProps d k <;> simp [List.findSome?, h, Option.orElse]
    rw [h2, orElse_orElse]
    rw [lookup_merge]
    rcases List.findSome? (fun d2 => lookupProps d2 k) rest.reverse with _ | v <;>
      cases h : lookupProps d k <;> simp [Option.orElse, h]

theorem foldl_withProps_defaults (ds : List Props) (d0 : Definition) :
    (ds.foldl Definition.withProps d0).defaults = d0.defaults ++ ds := by
  induction ds generalizing d0 with
  | nil => simp
  | cons d rest ih =>
    have h1 : (d :: rest).foldl Definition.withProps d0
        = rest.foldl Definition.withProps (d0.withProps d) := rfl
    rw [h1, ih]
    simp [Definition.withProps]

theorem lookup_mergeDefaults (ds : List Props) (k : String) :
    lookupProps (mergeDefaults ds) k
      = List.findSome? (fun d => lookupProps d k) ds.reverse := by
  unfold mergeDefaults
  rw [lookup_foldl_merge]
  cases List.findSome? (fun d => lookupProps d k) ds.reverse <;> rfl

theorem lookup_literalEntries (p : Props) (k : String) (ha : aliasTargets k = none) :
    lookupProps (literalEntries p) k = lookupProps p k := by
  unfold literalEntries
  rw [lookup_filterKey (fun key => (aliasTargets key).isNone)]
  simp [ha]

/-! ### Claims -/

/-- Claim C1: registered moulinettes are applied in reverse registration
order — the input a transform receives is exactly the result of running the
transforms registered after it, independent of those registered before it;
concretely, styleDisabled (registered first) sees the disabled prop produced
by loader only when loader is registered after it. -/
theorem c1_transform_reverse_order :
    (∀ (ms₁ : List Moulinette) (m : Moulinette) (ms₂ : List Moulinette)
        (t : Option Theme) (p : Props),
      applyMoulinettes (ms₁ ++ m :: ms₂) t p
        = applyMoulinettes ms₁ t (m (applyMoulinettes ms₂ t p) t))
    ∧ lookupProps
        (applyMoulinettes [styleDisabled, loader] none [("loading", Value.bool true)])
        "background" = some (Value.str "gray")
    ∧ lookupProps
        (applyMoulinettes [loader, styleDisabled] none [("loading", Value.bool true)])
        "background" = some (Value.str "white") := by
  refine ⟨?_, by decide, by decide⟩
  intro ms₁ m ms₂ t p
  rw [applyMoulinettes_append]
  rfl

/-- Claim C2: the defaults resolved from any sequence of default-prop objects
added via repeated with-calls equal their single right-biased shallow merge —
on each key the value found is the one from the latest-added object defining
that key, and keys defined by a single object are kept unchanged. -/
theorem c2_defaults_single_merge (ds : List Props) (k : String) :
    lookupProps (mergeDefaults ((ds.foldl Definition.withProps mtDef).defaults)) k
      = List.findSome? (fun d => lookupProps d k) ds.reverse := by
  rw [foldl_withProps_defaults]
  simp only [mtDef, List.nil_append]
  exact lookup_mergeDefaults ds k

/-- Claim C3: a prop passed literally at render time takes precedence over
anything accumulated from the definition's defaults and moulinettes;
concretely a component built with defaults width 100 and rendered with
width 200 resolves width to 200. -/
theorem c3_literal_props_override :
    (∀ (d : Definition) (props : Props) (t : Option Theme) (k : String),
      lookupProps (accumulated d props t) k
        = (lookupProps props k).orElse
            (fun _ =>
              lookupProps (applyMoulinettes d.moulinettes t (mergeDefaults d.defaults)) k))
    ∧ lookupProps
        (resolve (Definition.withProps mtDef [("width", Value.num 100)])
          [("width", Value.num 200)] none)
        "width" = some (Value.num 200) := by
  refine ⟨?_, by decide⟩
  intro d props t k
  unfold accumulated
  exact lookup_merge _ props k

/-- Claim C4: the axis shorthand mx with numeric value v expands to both
marginLeft and marginRight equal to v with no theme, and to v multiplied by
the theme's spacing multiplier s when a theme is present; in particular mx 2
with spacing 8 resolves to marginLeft 16 and marginRight 16. -/
theorem c4_mx_axis_expansion (v s : Int) :
    resolve mtDef [("mx", Value.num v)] none
        = [("marginLeft", Value.num v), ("marginRight", Value.num v)]
    ∧ resolve mtDef [("mx", Value.num v)] (some ⟨some s, [], [], []⟩)
        = [("marginLeft", Value.num (v * s)), ("marginRight", Value.num (v * s))]
    ∧ resolve mtDef [("mx", Value.num 2)] (some ⟨some 8, [], [], []⟩)
        = [("marginLeft", Value.num 16), ("marginRight", Value.num 16)] := by
  refine ⟨?_, rfl, by decide⟩
  have h : resolve mtDef [("mx", Value.num v)] none
      = [("marginLeft", Value.num (v * 1)), ("marginRight", Value.num (v * 1))] := rfl
  rw [h]
  simp

/-- Claim C5: a color-family property whose value is a key of the theme's
colors mapping resolves to the mapped theme value; a value matching no theme
key, or resolved with no theme at all, is kept literally. -/
theorem c5_color_theme_lookup (prop s : String) (v : Value) (th : Theme)
    (hc : isColorProp prop = true) :
    (lookupProps th.colors s = some v →
        resolve mtDef [(prop, Value.str s)] (some th) = [(prop, v)])
    ∧ (lookupProps th.colors s = none →
        resolve mtDef [(prop, Value.str s)] (some th) = [(prop, Value.str s)])
    ∧ resolve mtDef [(prop, Value.str s)] none = [(prop, Value.str s)] := by
  by_cases h1 : prop = "color"
  · subst h1
    have h : resolve mtDef [("color", Value.str s)] (some th)
        = [("color", (lookupProps th.colors s).getD (Value.str s))] := rfl
    exact ⟨fun hl => by rw [h, hl]; rfl, fun hl => by rw [h, hl]; rfl, rfl⟩
  · by_cases h2 : prop = "borderColor"
    · subst h2
      have h : resolve mtDef [("borderColor", Value.str s)] (some th)
          = [("borderColor", (lookupProps th.colors s).getD (Value.str s))] := rfl
      exact ⟨fun hl => by rw [h, hl]; rfl, fun hl => by rw [h, hl]; rfl, rfl⟩
    · by_cases h3 : prop = "backgroundColor"
      · subst h3
        have h : resolve mtDef [("backgroundColor", Value.str s)] (some th)
            = [("backgroundColor", (lookupProps th.colors s).getD (Value.str s))] := rfl
        exact ⟨fun hl => by rw [h, hl]; rfl, fun hl => by rw [h, hl]; rfl, rfl⟩
      · exfalso
        simp [isColorProp, colorProps, List.contains, h1, h2, h3] at hc

/-- Witness for claim C5: with theme colors mapping primary to red, the prop
color primary resolves to color red. -/
theorem c5_witness :
    resolve mtDef [("color", Value.str "primary")]
        (some ⟨none, [("primary", Value.str "red")], [], []⟩)
      = [("color", Value.str "red")] :=
  (c5_color_theme_lookup "color" "primary" (Value.str "red")
    ⟨none, [("primary", Value.str "red")], [], []⟩ (by decide)).1 (by decide)

/-- Claim C6: when a props mapping contains both a shorthand alias and one of
its longhand targets, after alias expansion the longhand keeps the value
passed literally as the longhand; in general any non-alias key present in
the input keeps its literal value through alias expansion, and concretely
mx 8 together with literal marginLeft 3 resolves marginLeft to 3. -/
theorem c6_longhand_wins (p : Props) (k : String) (v : Value)
    (ha : aliasTargets k = none) (hv : lookupProps p k = some v) :
    lookupProps (expandAliases p) k = some v
    ∧ lookupProps
        (resolve mtDef [("mx", Value.num 8), ("marginLeft", Value.num 3)] none)
        "marginLeft" = some (Value.num 3) := by
  refine ⟨?_, by decide⟩
  unfold expandAliases
  rw [lookup_merge, lookup_literalEntries p k ha, hv]
  rfl

/-- Witness for claim C6: the non-alias key marginLeft with literal value 3
keeps that value through alias expansion. -/
theorem c6_witness :
    lookupProps (expandAliases [("mx", Value.num 8), ("marginLeft", Value.num 3)]) "marginLeft"
      = some (Value.num 3) :=
  (c6_longhand_wins [("mx", Value.num 8), ("marginLeft", Value.num 3)]
    "marginLeft" (Value.num 3) (by decide) (by decide)).1

/-- Claim C7: a css-built transform computes its interpolations on exactly
the props accumulated by the chain steps registered after the css call;
concretely an interpolation reading myColor sees the value when the
myColor-setting step is added after the css call and not when it is added
before, so visibility between a css call and another chain step is
non-symmetric and follows registration order. -/
theorem c7_css_interpolation_visibility :
    (∀ (ms₁ ms₂ : List Moulinette) (parts : List String) (fns : List (Props → String))
        (t : Option Theme) (p : Props),
      applyMoulinettes (ms₁ ++ cssMoulinette parts fns :: ms₂) t p
        = applyMoulinettes ms₁ t
            (mergeProps (applyMoulinettes ms₂ t p)
              [("css",
                Value.str (cssOf (applyMoulinettes ms₂ t p)
                  ++ interleave parts fns (applyMoulinettes ms₂ t p)))]))
    ∧ lookupProps
        (resolve
          ((mtDef.css ["background: ", ""] [fun p2 => strOf (lookupProps p2 "myColor")]).withFn
            setMyColor)
          [] none)
        "css" = some (Value.str "background: blue")
    ∧ lookupProps
        (resolve
          ((mtDef.withFn setMyColor).css ["background: ", ""]
            [fun p2 => strOf (lookupProps p2 "myColor")])
          [] none)
        "css" = some (Value.str "background: ") := by
  refine ⟨?_, by decide, by decide⟩
  intro ms₁ ms₂ parts fns t p
  rw [applyMoulinettes_append]
  rfl

/-- Claim C8: the resolution pipeline itself is total — with never-throwing
transforms it returns exactly the pure pipeline's result on every input —
and an error thrown by a user-supplied transform is propagated synchronously
to the caller rather than swallowed. -/
theorem c8_error_semantics :
    (∀ (d : Definition) (props : Props) (t : Option Theme),
      resolveE (liftDef d) props t = Except.ok (resolve d props t))
    ∧ (∀ (ds : List Props) (ms₁ : List MoulinetteE) (e : String) (ms₂ : List Moulinette)
        (props : Props) (t : Option Theme),
      resolveE ⟨ds, ms₁ ++ (fun _ _ => Except.error e) :: ms₂.map liftMoulinette⟩ props t
        = Except.error e) := by
  constructor
  · intro d props t
    unfold resolveE liftDef
    rw [applyMoulinettesE_lift]
    rfl
  · intro ds ms₁ e ms₂ props t
    unfold resolveE
    have h2 : applyMoulinettesE ((fun _ _ => Except.error e) :: ms₂.map liftMoulinette) t
        (mergeDefaults ds) = Except.error e := by
      show (applyMoulinettesE (ms₂.map liftMoulinette) t (mergeDefaults ds)).bind
          (fun _ => Except.error e) = Except.error e
      rw [applyMoulinettesE_lift]
      rfl
    have h1 : applyMoulinettesE
        (ms₁ ++ (fun _ _ => Except.error e) :: ms₂.map liftMoulinette) t (mergeDefaults ds)
        = Except.error e := by
      rw [applyMoulinettesE_append, h2]
      rfl
    rw [h1]
    rfl

/-- Claim C9: the resolution pipeline is a pure function of the definition,
the props and the theme — two resolutions of structurally identical inputs
yield structurally identical results, with no dependence on anything else. -/
theorem c9_deterministic (d1 d2 : Definition) (p1 p2 : Props) (t1 t2 : Option Theme)
    (hd : d1 = d2) (hp : p1 = p2) (ht : t1 = t2) :
    resolve d1 p1 t1 = resolve d2 p2 t2 := by
  subst hd
  subst hp
  subst ht
  rfl

/-- Witness for claim C9: resolving a concrete input twice yields the same
resolved props. -/
theorem c9_witness :
    resolve mtDef [("width", Value.num 1)] none
      = resolve mtDef [("width", Value.num 1)] none :=
  c9_deterministic mtDef mtDef [("width", Value.num 1)] [("width", Value.num 1)]
    none none rfl rfl rfl

/-- Claim C10: the alias table consists of exactly the 24 documented
shorthands with the documented targets — it is a permutation of the table
claim C10 lists, it has 24 entries, and a key is treated as an alias exactly
when it is one of those 24 keys. -/
theorem c10_alias_table_exact :
    aliasTable.Perm claimedAliasTable
    ∧ aliasTable.length = 24
    ∧ (∀ k, aliasTargets k = none ↔ k ∉ claimedAliasTable.map Prod.fst) := by
  have hperm : aliasTable.Perm claimedAliasTable := by decide
  refine ⟨hperm, by decide, ?_⟩
  intro k
  unfold aliasTargets
  rw [Option.map_eq_none', List.find?_eq_none]
  constructor
  · intro h hk
    rcases List.mem_map.mp hk with ⟨x, hx, hfst⟩
    have hxa : x ∈ aliasTable := hperm.mem_iff.mpr hx
    have := h x hxa
    simp [hfst] at this
  · intro h x hx
    simp only [beq_iff_eq]
    intro hfst
    exact h (List.mem_map.mpr ⟨x, hperm.mem_iff.mp hx, hfst⟩)

end Systyle
